import Mathlib

/-!
Verification development for the queuepool resource pool.

The definitions below are a shallow embedding of the pool engine in
`src/postgres.py` (the most complete working variant: classes
`ResourceManager`, `ConnectionManager`, `Pool`).  Timestamps are modelled
as integers (the code compares real-valued durations; the integer-valued
time model keeps every comparison executable and loses none of the
control flow); every call of `datetime.now()` in the Python source becomes
an explicit time parameter of the corresponding Lean function, in the
order the calls occur.  The LIFO store `queue.LifoQueue` is modelled as a
list whose head is the top of the stack (most recently put).
-/

/-- State of a managed resource, embedding `ResourceManager.__init__`
(src/postgres.py lines 40-47).  The Python code initialises
`_lastOpened`, `_lastUsed` and `_usageCount` to `None`; those fields are
only ever read after `open()` has set them, so they are modelled as plain
numbers here (a fresh closed resource carries dummy zeros that no
operation inspects). -/
structure ResourceManager where
  name : String
  isOpen : Bool
  lastOpened : ℤ
  lastUsed : ℤ
  usageCount : ℕ
deriving DecidableEq

/-- `ResourceManager.open` (src/postgres.py lines 56-61): sets
`_isOpen = True`, `_lastOpened = t`, `_lastUsed = t`, `_usageCount = 0`,
where `t` is the `datetime.now()` sampled inside `open`.  (`open` is a
Lean keyword, hence the name `openR`.) -/
def ResourceManager.openR (t : ℤ) (r : ResourceManager) : ResourceManager :=
  { r with isOpen := true, lastOpened := t, lastUsed := t, usageCount := 0 }

/-- `ResourceManager.close` (src/postgres.py lines 64-65): sets
`_isOpen = False` and nothing else. -/
def ResourceManager.closeR (r : ResourceManager) : ResourceManager :=
  { r with isOpen := false }

/-- State of a pool, embedding `Pool.__init__` (src/postgres.py lines
138-147).  The constructor's parameters are exactly `name`, `capacity`,
`maxIdleTime`, `maxOpenTime`, `maxUsageCount`, `closeOnException`; it has
no take-timeout parameter.  `store` models `self._queue`, a
`queue.LifoQueue(capacity)`; its head is the top of the stack.  A `none`
threshold models Python `None` (the corresponding check disabled). -/
structure Pool where
  name : String
  capacity : ℕ
  maxIdleTime : Option ℤ
  maxOpenTime : Option ℤ
  maxUsageCount : Option ℕ
  closeOnException : Bool
  store : List ResourceManager
deriving DecidableEq

/-- `Pool._recycle` (src/postgres.py lines 177-185): given the
`datetime.now()` value `t` sampled at line 178, an open resource is
closed when any of the three expiry conditions holds; a closed resource
is returned untouched. -/
def Pool._recycle (p : Pool) (t : ℤ) (r : ResourceManager) : ResourceManager :=
  if r.isOpen then
    let isMaxIdle : Bool :=
      match p.maxIdleTime with
      | none => false
      | some m => decide (t - r.lastUsed > m)
    let isMaxOpen : Bool :=
      match p.maxOpenTime with
      | none => false
      | some m => decide (t - r.lastOpened > m)
    let isMaxUsage : Bool :=
      match p.maxUsageCount with
      | none => false
      | some m => decide (r.usageCount ≥ m)
    if isMaxIdle || isMaxOpen || isMaxUsage then r.closeR else r
  else r

/-- Outcome of `Pool.take`.  `blocked` models `self._queue.get()`
blocking forever on an empty store; `poolTimeout` models the spec's
`PoolTimeoutError` outcome (included so that its absence from the code is
statable: no take-timeout exists in `Pool.__init__` and `take` never
produces this outcome); `openError` models the exception raised by
`r.open()` propagating out of `take` (src/postgres.py line 162 has no
handler around `r.open()`), carrying the resource as it was at that
moment and the pool state the caller observes afterwards. -/
inductive TakeResult where
  | blocked : TakeResult
  | poolTimeout : TakeResult
  | ok : ResourceManager → Pool → TakeResult
  | openError : ResourceManager → Pool → TakeResult
deriving DecidableEq

/-- `Pool.take` (src/postgres.py lines 155-166).  `tTake` is the
`datetime.now()` of line 156, `tRec` the one `_recycle` samples at line
178, `tOpen` the one `open` samples; `openFails` says whether the
collaborator-specific `open()` raises.  `r.takeRepair()` (line 160) is a
no-op for the base `ResourceManager` (lines 68-69).  Note: when `open()`
raises, the exception propagates and the popped resource is not pushed
back - the store the caller is left with is just the remainder. -/
def Pool.take (p : Pool) (tTake tRec : ℤ) (openFails : Bool) (tOpen : ℤ) :
    TakeResult :=
  match p.store with
  | [] => .blocked
  | r :: rest =>
    let r1 := p._recycle tRec r
    if !r1.isOpen && openFails then
      .openError r1 { p with store := rest }
    else
      let r2 := if r1.isOpen then r1 else r1.openR tOpen
      .ok { r2 with usageCount := r2.usageCount + 1, lastUsed := tTake }
        { p with store := rest }

/-- Outcome of `Pool.put`: `blocked` models the blocking
`self._queue.put(r)` on a full bounded queue (a `queue.LifoQueue` with
`maxsize <= 0` is unbounded, hence the `capacity = 0` case never
blocks). -/
inductive PutResult where
  | blocked : PutResult
  | ok : Pool → PutResult
deriving DecidableEq

/-- `Pool.put` (src/postgres.py lines 168-175).  `tPut` is the
`datetime.now()` of line 169; `tRec` the one `_recycle` samples.  The
code sets `r._lastUsed = t` (line 171) BEFORE calling `_recycle` (line
172), then calls `r.putRepair()` (a no-op for the base
`ResourceManager`, lines 71-72) and pushes `r` onto the LIFO queue. -/
def Pool.put (p : Pool) (tPut tRec : ℤ) (r : ResourceManager) : PutResult :=
  let r1 := { r with lastUsed := tPut }
  let r2 := p._recycle tRec r1
  if p.capacity == 0 || p.store.length < p.capacity then
    .ok { p with store := r2 :: p.store }
  else
    .blocked

/-- `ResourceManager.__exit__` (src/postgres.py lines 77-81): on scope
exit, if the pool's `closeOnException` holds and an exception was raised
in the body (`exc_type is not None`), `self.close()` runs first; then
`self._pool.put(self)`; `__exit__` returns `False` (the exception is
never suppressed), modelled by the second component. -/
def ResourceManager.exitCM (r : ResourceManager) (p : Pool) (excRaised : Bool)
    (tPut tRec : ℤ) : PutResult × Bool :=
  let r1 := if p.closeOnException && excRaised then r.closeR else r
  (p.put tPut tRec r1, false)

/-- The drain loop of `Pool.recycle` (src/postgres.py lines 192-200):
`while not done and len(rs) != self.capacity:` pop with `block=False`
(`queue.Empty` ends the loop), apply `self._recycle`, append to `rs`.
`ts i` is the `datetime.now()` `_recycle` samples on the iteration that
has collected `i` resources so far.  Returns the collected list `rs`
together with whatever is left in the queue. -/
def Pool.sweepLoop (p : Pool) (ts : ℕ → ℤ) :
    List ResourceManager → List ResourceManager →
    List ResourceManager × List ResourceManager
  | [], rs => (rs, [])
  | r :: rest, rs =>
    if rs.length = p.capacity then (rs, r :: rest)
    else p.sweepLoop ts rest (rs ++ [p._recycle (ts rs.length) r])

/-- `Pool.recycle` (src/postgres.py lines 187-203): drain the idle store
via the loop above, then `for r in reversed(rs): self._queue.put(r)` -
pushing the collected resources back in reverse pop order restores them
above whatever remained, i.e. the new stack is `rs ++ remainder`. -/
def Pool.recycle (p : Pool) (ts : ℕ → ℤ) : Pool :=
  let d := p.sweepLoop ts p.store []
  { p with store := d.1 ++ d.2 }

/-- Element-wise specification of a full drain: apply `p._recycle` to
every element in place, the element at depth `i` (from the top) with
timestamp `ts (k + i)`. -/
def Pool.recycleFrom (p : Pool) (ts : ℕ → ℤ) (k : ℕ) :
    List ResourceManager → List ResourceManager
  | [] => []
  | r :: rest => p._recycle (ts k) r :: p.recycleFrom ts (k + 1) rest

/-! ### The psycopg2 connection manager (`ConnectionManager`) -/

/-- Transaction status reported by the driver
(`self.resource.info.transaction_status`, values of
`psycopg2.extensions`): `idle` is `TRANSACTION_STATUS_IDLE`, `unknown`
is `TRANSACTION_STATUS_UNKNOWN` (server connection lost), the remaining
three are ACTIVE / INTRANS / INERROR. -/
inductive TransactionStatus where
  | idle : TransactionStatus
  | active : TransactionStatus
  | intrans : TransactionStatus
  | inerror : TransactionStatus
  | unknown : TransactionStatus
deriving DecidableEq

/-- Model of the live psycopg2 connection handle (`self.resource`).
`closed` mirrors `self.resource.closed`; `status` the transaction
status; `rollbackRaises` models whether `self.resource.rollback()`
raises when called (the driver may raise, e.g. if the server drops the
connection between the status check and the rollback). -/
structure PGConn where
  closed : Bool
  status : TransactionStatus
  rollbackRaises : Bool
deriving DecidableEq

/-- State of a `ConnectionManager` (src/postgres.py lines 84-133): the
inherited `ResourceManager` state plus the `self.resource` handle
(`none` models Python `None`). -/
structure ConnectionManager where
  rm : ResourceManager
  resource : Option PGConn
deriving DecidableEq

/-- `ConnectionManager.close` (src/postgres.py lines 103-107): closes the
underlying handle unless already closed, sets `self.resource = None`,
then `super().close()` clears `_isOpen`. -/
def ConnectionManager.closeCM (c : ConnectionManager) : ConnectionManager :=
  { rm := c.rm.closeR, resource := none }

/-- Outcome of `ConnectionManager.repair`: either a normal return with
the new state, or an exception escaping `repair` (the state as it was
when the exception was raised). -/
inductive RepairResult where
  | ok : ConnectionManager → RepairResult
  | raised : ConnectionManager → RepairResult
deriving DecidableEq

/-- `ConnectionManager.repair` (src/postgres.py lines 109-126).  The
source has no try/except: if `_isOpen` holds and the handle is live, an
`unknown` status leads to `self.close()`, an `idle` status to nothing,
and any other status to `self.resource.rollback()` - which, if the
driver raises there, propagates out of `repair` unhandled (modelled by
`raised`, with the rollback leaving the state as it was).  A handle
closed outside the manager leads to `self.close()`.  `_isOpen` with
`resource = None` (never reached through the pool protocol) would raise
an `AttributeError` in Python, modelled by `raised` as well. -/
def ConnectionManager.repair (c : ConnectionManager) : RepairResult :=
  if c.rm.isOpen then
    match c.resource with
    | none => .raised c
    | some h =>
      if !h.closed then
        match h.status with
        | .unknown => .ok c.closeCM
        | .idle => .ok c
        | _ =>
          if h.rollbackRaises then .raised c
          else .ok { c with resource := some { h with status := .idle } }
      else .ok c.closeCM
  else .ok c

/-! ### Concrete fixtures used by witnesses and counterexamples -/

/-- An open, stale resource: `lastUsed = 0` lies far in the past. -/
def rStale : ResourceManager := ⟨"S", true, 95, 0, 1⟩

/-- A pool with `maxIdleTime = 10`, used to exercise idle expiry. -/
def poolIdle : Pool := ⟨"q", 2, some 10, some 300, some 1000, true, []⟩

/-- Freshly opened resource "A" for the usage-count scenario. -/
def rA2 : ResourceManager := ⟨"A", true, 0, 0, 0⟩

/-- Freshly opened resource "B" for the usage-count scenario. -/
def rB2 : ResourceManager := ⟨"B", true, 0, 0, 0⟩

/-- The C5 scenario pool: capacity 2, `maxUsageCount = 2`, pre-populated
with the opened `rA2` and `rB2` (B on top, as after `put A; put B`). -/
def poolUsage2 : Pool := ⟨"u", 2, some 300, some 300, some 2, true, [rB2, rA2]⟩

/-- An open resource that witnesses an exception inside a scope. -/
def rOpenC6 : ResourceManager := ⟨"C", true, 0, 0, 1⟩

/-- A closed resource named "B". -/
def rClosedB : ResourceManager := ⟨"B", false, 0, 0, 0⟩

/-- A connection manager whose handle is live but mid-transaction, and
whose rollback raises. -/
def cmStuck : ConnectionManager :=
  ⟨⟨"A", true, 0, 0, 1⟩, some ⟨false, .intrans, true⟩⟩

/-! ### More fixtures -/

/-- A closed resource named "A" (state right after construction). -/
def rClosedA : ResourceManager := ⟨"A", false, 0, 0, 0⟩

/-- A pool of capacity 1 holding just the closed resource `rClosedA`. -/
def poolOneClosed : Pool := ⟨"p", 1, some 300, some 300, some 1000, true, [rClosedA]⟩

/-- An empty pool of capacity 2 with the constructor's default thresholds. -/
def poolEmpty : Pool := ⟨"p", 2, some 300, some 300, some 1000, true, []⟩

/-- An open resource that has reached its usage threshold in `poolSmallUsage`. -/
def rOpenUsed : ResourceManager := ⟨"W", true, 0, 0, 5⟩

/-- A pool with `maxUsageCount = 3`, used to exercise the usage condition. -/
def poolSmallUsage : Pool := ⟨"w", 2, some 300, some 300, some 3, true, []⟩

/-! ### Helper lemmas about `Pool._recycle` -/

/-- Recycling leaves a closed resource untouched. -/
theorem recycle_of_closed (p : Pool) (t : ℤ) (r : ResourceManager)
    (h : r.isOpen = false) : p._recycle t r = r := by
  simp [Pool._recycle, h]

/-- Recycling only ever touches `isOpen`: the identity and the counters
survive, and a resource that is open afterwards was open before. -/
theorem recycle_frame (p : Pool) (t : ℤ) (r : ResourceManager) :
    (p._recycle t r).name = r.name ∧
    (p._recycle t r).lastOpened = r.lastOpened ∧
    (p._recycle t r).lastUsed = r.lastUsed ∧
    (p._recycle t r).usageCount = r.usageCount ∧
    ((p._recycle t r).isOpen = true → r.isOpen = true) := by
  unfold Pool._recycle
  by_cases h : r.isOpen = true
  · simp only [h, if_true]
    split
    · simp [ResourceManager.closeR]
    · simp
  · simp only [Bool.not_eq_true] at h
    simp [h]

/-! ### C1: behaviour of `take` when a lazy `open()` fails -/

/-- C1: with a pool of capacity 1 holding one closed resource, a `take`
whose `open()` raises propagates the error WITHOUT pushing the resource
back: the store is left empty, so the pool's capacity is lost.  This
evaluates `Pool.take` (src/postgres.py lines 155-166, where line 162
`r.open()` has no exception handler) at the failing input, refuting the
claim that the resource is pushed back before the error surfaces. -/
theorem takeOpenFailLosesResource :
    poolOneClosed.take 0 0 true 0 =
      .openError rClosedA ⟨"p", 1, some 300, some 300, some 1000, true, []⟩ ∧
    (poolOneClosed.take 0 0 true 0 ≠
      .openError rClosedA poolOneClosed) := by
  constructor
  · rfl
  · decide

/-! ### C2: there is no take timeout -/

/-- C2 counterexample: on an empty store every `take` blocks - it never
produces the spec's `PoolTimeoutError` outcome, and `Pool.__init__`
(src/postgres.py lines 138-147) accepts no timeout parameter at all. -/
theorem takeEmptyBlocksConcrete :
    poolEmpty.take 0 0 false 0 = .blocked ∧
    poolEmpty.take 0 0 false 0 ≠ .poolTimeout := by
  constructor
  · rfl
  · decide

/-- C2 amended: `take` on an empty store blocks indefinitely, and no
`take` ever yields the `poolTimeout` outcome - the pool has no
configurable take timeout. -/
theorem takeHasNoTimeout (p : Pool) (tT tR : ℤ) (oF : Bool) (tO : ℤ) :
    (p.store = [] → p.take tT tR oF tO = .blocked) ∧
    p.take tT tR oF tO ≠ .poolTimeout := by
  unfold Pool.take
  cases h : p.store with
  | nil => exact ⟨fun _ => rfl, by simp⟩
  | cons r rest =>
    refine ⟨fun hc => by simp [h] at hc, ?_⟩
    dsimp only
    split
    · simp
    · simp

/-- C2 amended, witness at a concrete input. -/
theorem takeHasNoTimeoutWitness :
    poolEmpty.take 1 1 false 1 = .blocked :=
  (takeHasNoTimeout poolEmpty 1 1 false 1).1 rfl

/-! ### C3: the recycling policy -/

/-- C3: `_recycle` closes an open resource exactly when one of the three
configured conditions holds (idle-expired, age-expired, usage-expired),
and leaves a closed resource completely untouched. -/
theorem recyclePolicyIff (p : Pool) (t : ℤ) (r : ResourceManager) :
    (r.isOpen = true →
      ((p._recycle t r).isOpen = false ↔
        (∃ m, p.maxIdleTime = some m ∧ t - r.lastUsed > m) ∨
        (∃ m, p.maxOpenTime = some m ∧ t - r.lastOpened > m) ∨
        (∃ m, p.maxUsageCount = some m ∧ r.usageCount ≥ m))) ∧
    (r.isOpen = false → p._recycle t r = r) := by
  refine ⟨fun hopen => ?_, recycle_of_closed p t r⟩
  rcases hmi : p.maxIdleTime with _ | mi <;>
    rcases hmo : p.maxOpenTime with _ | mo <;>
    rcases hmu : p.maxUsageCount with _ | mu <;>
    simp only [Pool._recycle, hopen, hmi, hmo, hmu, if_true, Option.some.injEq,
      reduceCtorEq, false_and, exists_false, exists_eq_left', false_or, or_false,
      Bool.false_or, Bool.or_false] <;>
    split <;> rename_i h
  all_goals constructor
  all_goals intro h2
  all_goals first
    | rfl
    | exact h2.elim
    | (rw [hopen] at h2; exact absurd h2 (by decide))
    | (simp only [Bool.or_eq_true, decide_eq_true_eq] at h <;> tauto)

/-- C3 witness: at concrete inputs, a closed resource passes through
`_recycle` unchanged, and an open usage-expired resource is closed. -/
theorem recyclePolicyIffWitness :
    poolSmallUsage._recycle 1 rClosedA = rClosedA ∧
    (poolSmallUsage._recycle 1 rOpenUsed).isOpen = false :=
  ⟨(recyclePolicyIff poolSmallUsage 1 rClosedA).2 rfl,
   ((recyclePolicyIff poolSmallUsage 1 rOpenUsed).1 rfl).mpr
     (Or.inr (Or.inr ⟨3, rfl, by decide⟩))⟩

/-! ### Helper lemmas about `put` and `take` -/

/-- `put` on a non-full store succeeds and pushes the recycled resource
(with `lastUsed` refreshed first) on top of the stack. -/
theorem put_ok (q : Pool) (tP tR : ℤ) (s : ResourceManager)
    (h : q.store.length < q.capacity) :
    q.put tP tR s =
      .ok { q with store := q._recycle tR { s with lastUsed := tP } :: q.store } := by
  have hd : decide (q.store.length < q.capacity) = true := decide_eq_true h
  simp [Pool.put, hd]

/-- `put` of a closed resource pushes it back closed, with only
`lastUsed` refreshed. -/
theorem put_of_closed (q : Pool) (tP tR : ℤ) (s : ResourceManager)
    (hs : s.isOpen = false) (h : q.store.length < q.capacity) :
    q.put tP tR s = .ok { q with store := { s with lastUsed := tP } :: q.store } := by
  rw [put_ok q tP tR s h,
    recycle_of_closed q tR { s with lastUsed := tP } hs]

/-- `take` on a non-empty store pops the top resource, recycles it,
lazily re-opens it if closed (here: open succeeds), increments
`usageCount` and stamps `lastUsed`. -/
theorem take_cons (p : Pool) (r : ResourceManager) (rest : List ResourceManager)
    (h : p.store = r :: rest) (tT tR tO : ℤ) :
    p.take tT tR false tO =
      .ok (let r1 := p._recycle tR r
           let r2 := if r1.isOpen then r1 else r1.openR tO
           { r2 with usageCount := r2.usageCount + 1, lastUsed := tT })
        { p with store := rest } := by
  simp [Pool.take, h]

/-! ### C4: idle recycling -/

/-- Under the idle condition, `_recycle` closes the resource. -/
theorem recycle_closes_of_idle (p : Pool) (m t : ℤ) (r : ResourceManager)
    (hm : p.maxIdleTime = some m) (hopen : r.isOpen = true)
    (hidle : t - r.lastUsed > m) : (p._recycle t r).isOpen = false := by
  simp [Pool._recycle, hopen, hm, hidle, ResourceManager.closeR]

/-- C4 counterexample: `rStale` is open and its `lastUsed = 0` is far
older than `poolIdle`'s `maxIdleTime = 10` at check-in time 100, yet
`put` (src/postgres.py line 171 sets `r._lastUsed = t` BEFORE the
`_recycle` of line 172) returns it to the store still OPEN: the
`_recycle` evaluation inside `put` does not close it, refuting the
claim for the put() case. -/
theorem putIdleStaysOpen :
    rStale.isOpen = true ∧
    poolIdle.maxIdleTime = some 10 ∧
    (100 : ℤ) - rStale.lastUsed > 10 ∧
    poolIdle.put 100 100 rStale =
      .ok ⟨"q", 2, some 10, some 300, some 1000, true, [⟨"S", true, 95, 100, 1⟩]⟩ := by
  refine ⟨rfl, rfl, by decide, ?_⟩
  rfl

/-- C4 amended: an open resource whose `lastUsed` is older than the
configured `maxIdleTime` is closed by the next `_recycle` evaluation
applied to it as-is - which is what `take()` and the background sweep
do; `put()` instead refreshes `lastUsed` before its `_recycle` runs (so
its evaluation sees the refreshed timestamp, as the counterexample
shows).  Once closed, the resource is pushed back closed by `put` and
left untouched by any further `_recycle`, until it is next taken. -/
theorem idleRecyclingAmended (p : Pool) (m t : ℤ) (r : ResourceManager)
    (hm : p.maxIdleTime = some m) (hopen : r.isOpen = true)
    (hidle : t - r.lastUsed > m) :
    (p._recycle t r).isOpen = false ∧
    (∀ (q : Pool) (tP tR : ℤ), q.store.length < q.capacity →
      q.put tP tR (p._recycle t r) =
        .ok { q with store := { p._recycle t r with lastUsed := tP } :: q.store }) ∧
    (∀ t' : ℤ, p._recycle t' (p._recycle t r) = p._recycle t r) := by
  have hclosed := recycle_closes_of_idle p m t r hm hopen hidle
  exact ⟨hclosed,
    fun q tP tR hq => put_of_closed q tP tR _ hclosed hq,
    fun t' => recycle_of_closed p t' _ hclosed⟩

/-- C4 amended, witness at a concrete input: `rStale` under `poolIdle`
at time 100. -/
theorem idleRecyclingAmendedWitness :
    (poolIdle._recycle 100 rStale).isOpen = false :=
  (idleRecyclingAmended poolIdle 10 100 rStale rfl rfl (by decide)).1

/-! ### C5: the usage-count example scenario -/

/-- C5: capacity 2, `maxUsageCount = 2`, both resources open.  Three
take/use/put cycles on the same logical resource "B": the 1st put
returns it open with `usageCount = 1`; the 2nd take brings
`usageCount` to 2 and the 2nd put closes it; the 3rd take performs a
fresh open (at time 5), after which `usageCount` is `0 + 1 = 1`. -/
theorem usageScenario :
    poolUsage2.take 1 1 false 1 =
      .ok ⟨"B", true, 0, 1, 1⟩ ⟨"u", 2, some 300, some 300, some 2, true, [rA2]⟩ ∧
    Pool.put ⟨"u", 2, some 300, some 300, some 2, true, [rA2]⟩ 2 2 ⟨"B", true, 0, 1, 1⟩ =
      .ok ⟨"u", 2, some 300, some 300, some 2, true, [⟨"B", true, 0, 2, 1⟩, rA2]⟩ ∧
    Pool.take ⟨"u", 2, some 300, some 300, some 2, true, [⟨"B", true, 0, 2, 1⟩, rA2]⟩ 3 3 false 3 =
      .ok ⟨"B", true, 0, 3, 2⟩ ⟨"u", 2, some 300, some 300, some 2, true, [rA2]⟩ ∧
    Pool.put ⟨"u", 2, some 300, some 300, some 2, true, [rA2]⟩ 4 4 ⟨"B", true, 0, 3, 2⟩ =
      .ok ⟨"u", 2, some 300, some 300, some 2, true, [⟨"B", false, 0, 4, 2⟩, rA2]⟩ ∧
    Pool.take ⟨"u", 2, some 300, some 300, some 2, true, [⟨"B", false, 0, 4, 2⟩, rA2]⟩ 5 5 false 5 =
      .ok ⟨"B", true, 5, 5, 1⟩ ⟨"u", 2, some 300, some 300, some 2, true, [rA2]⟩ := by
  refine ⟨rfl, ?_, rfl, ?_, rfl⟩ <;> rfl

/-! ### C6: scoped acquisition with closeOnException -/

/-- C6: with `closeOnException = true`, a scope exit after an exception
(`excRaised = true`) force-closes the resource before `put`, so the
resource lands back on the store closed (only `lastUsed` is refreshed by
the put), and the exception is not suppressed. -/
theorem exitClosesOnException (r : ResourceManager) (p : Pool) (tP tR : ℤ)
    (hpol : p.closeOnException = true)
    (hcap : p.store.length < p.capacity) :
    r.exitCM p true tP tR =
      (.ok { p with store :=
        ⟨r.name, false, r.lastOpened, tP, r.usageCount⟩ :: p.store }, false) := by
  have h := put_of_closed p tP tR r.closeR rfl hcap
  show (p.put tP tR (if p.closeOnException && true then r.closeR else r), false) = _
  rw [hpol]
  show (p.put tP tR r.closeR, false) = _
  rw [h, hpol]
  simp [ResourceManager.closeR]

/-- C6 witness: the open resource `rOpenC6` returned through a failing
scope on `poolEmpty` comes back closed. -/
theorem exitClosesOnExceptionWitness :
    rOpenC6.exitCM poolEmpty true 3 3 =
      (.ok ⟨"p", 2, some 300, some 300, some 1000, true,
        [⟨"C", false, 0, 3, 1⟩]⟩, false) :=
  exitClosesOnException rOpenC6 poolEmpty 3 3 rfl (by decide)

/-! ### C7: LIFO order of the idle store -/

/-- C7: putting A then B into an otherwise empty pool (with room for
both) and then taking yields the resource named B - the store is
last-in-first-out. -/
theorem lifoOrder (p : Pool) (A B : ResourceManager)
    (tA trA tB trB tT trT tO : ℤ)
    (hempty : p.store = []) (hcap : 2 ≤ p.capacity) :
    ∃ p1 p2 r p3,
      p.put tA trA A = .ok p1 ∧
      p1.put tB trB B = .ok p2 ∧
      p2.take tT trT false tO = .ok r p3 ∧
      r.name = B.name := by
  have hc0 : p.store.length < p.capacity := by rw [hempty]; simpa using by omega
  have h1 := put_ok p tA trA A hc0
  have hc1 : ({ p with store := p._recycle trA { A with lastUsed := tA } :: p.store } : Pool).store.length <
      ({ p with store := p._recycle trA { A with lastUsed := tA } :: p.store } : Pool).capacity := by
    simp [hempty]; omega
  have h2 := put_ok { p with store := p._recycle trA { A with lastUsed := tA } :: p.store } tB trB B hc1
  refine ⟨_, _, _, _, h1, h2, take_cons _ _ _ rfl tT trT tO, ?_⟩
  dsimp only
  split <;>
    exact ((recycle_frame _ _ _).1).trans ((recycle_frame _ _ _).1)

/-- C7 witness: the concrete resources `rClosedA`, `rClosedB` put into
the empty pool; the next take returns the one named "B". -/
theorem lifoOrderWitness :
    ∃ p1 p2 r p3,
      poolEmpty.put 0 0 rClosedA = .ok p1 ∧
      p1.put 0 0 rClosedB = .ok p2 ∧
      p2.take 1 1 false 1 = .ok r p3 ∧
      r.name = rClosedB.name :=
  lifoOrder poolEmpty rClosedA rClosedB 0 0 0 0 1 1 1 rfl (by decide)

/-! ### C8: repair never raising -/

/-- C8 counterexample: `cmStuck` is open, live, mid-transaction, and its
driver-level rollback raises.  `ConnectionManager.repair`
(src/postgres.py lines 109-126, no try/except) lets the exception
escape: the outcome is `raised`, the resource is left open, and in
particular the failure does NOT degrade to closing the resource. -/
theorem repairRollbackRaisesEscapes :
    cmStuck.rm.isOpen = true ∧
    cmStuck.repair = .raised cmStuck ∧
    cmStuck.repair ≠ .ok cmStuck.closeCM := by
  refine ⟨rfl, rfl, ?_⟩
  decide

/-- C8 amended: `repair` itself raises nothing of its own - whenever the
underlying handle operations succeed (here: the handle's rollback does
not raise), `repair` returns normally; a dead handle (`unknown` status)
or a handle closed outside the manager leads to `close()`, an idle
handle is left alone.  But a failure inside the handle operations (the
counterexample's raising rollback) propagates out of `repair`
unhandled. -/
theorem repairAmended (c : ConnectionManager) (h : PGConn)
    (hres : c.resource = some h) (hrb : h.rollbackRaises = false) :
    (∃ c', c.repair = .ok c') ∧
    (c.rm.isOpen = true → h.closed = true → c.repair = .ok c.closeCM) ∧
    (c.rm.isOpen = true → h.closed = false → h.status = .unknown →
      c.repair = .ok c.closeCM) ∧
    (c.rm.isOpen = true → h.closed = false → h.status = .idle →
      c.repair = .ok c) := by
  by_cases ho : c.rm.isOpen = true
  · by_cases hc : h.closed = true
    · simp_all [ConnectionManager.repair]
    · simp only [Bool.not_eq_true] at hc
      cases hst : h.status <;>
        simp_all [ConnectionManager.repair]
  · simp only [Bool.not_eq_true] at ho
    simp_all [ConnectionManager.repair]

/-- C8 amended, witness: an open manager over a live idle handle passes
through `repair` unchanged. -/
theorem repairAmendedWitness :
    ∃ c', ConnectionManager.repair ⟨⟨"I", true, 0, 0, 1⟩, some ⟨false, .idle, false⟩⟩ = .ok c' :=
  (repairAmended ⟨⟨"I", true, 0, 0, 1⟩, some ⟨false, .idle, false⟩⟩
    ⟨false, .idle, false⟩ rfl rfl).1

/-! ### The background sweep: C9 and C10 -/

/-- The drain loop fully drains a store that fits under the capacity,
recycling each element in pop order, and leaves the queue empty. -/
theorem sweepLoop_spec (p : Pool) (ts : ℕ → ℤ) :
    ∀ store rs : List ResourceManager, rs.length + store.length ≤ p.capacity →
      p.sweepLoop ts store rs = (rs ++ p.recycleFrom ts rs.length store, []) := by
  intro store
  induction store with
  | nil =>
    intro rs h
    simp [Pool.sweepLoop, Pool.recycleFrom]
  | cons r rest ih =>
    intro rs h
    have hne : rs.length ≠ p.capacity := by
      simp only [List.length_cons] at h
      omega
    have hle : (rs ++ [p._recycle (ts rs.length) r]).length + rest.length ≤ p.capacity := by
      simp only [List.length_append, List.length_cons, List.length_nil] at h ⊢
      omega
    rw [Pool.sweepLoop, if_neg hne, ih _ hle]
    simp [Pool.recycleFrom, List.length_append]

/-- `recycleFrom` preserves the list of names. -/
theorem recycleFrom_map_name (p : Pool) (ts : ℕ → ℤ) :
    ∀ (k : ℕ) (l : List ResourceManager),
      (p.recycleFrom ts k l).map (fun r => r.name) = l.map (fun r => r.name) := by
  intro k l
  induction l generalizing k with
  | nil => simp [Pool.recycleFrom]
  | cons r rest ih =>
    simp [Pool.recycleFrom, (recycle_frame p (ts k) r).1, ih]

/-- `recycleFrom` preserves length. -/
theorem recycleFrom_length (p : Pool) (ts : ℕ → ℤ) :
    ∀ (k : ℕ) (l : List ResourceManager),
      (p.recycleFrom ts k l).length = l.length := by
  intro k l
  induction l generalizing k with
  | nil => rfl
  | cons r rest ih => simp [Pool.recycleFrom, ih]

/-- `recycleFrom` acts element-wise: position `i` holds the recycled
original element of position `i`. -/
theorem recycleFrom_getElem (p : Pool) (ts : ℕ → ℤ) :
    ∀ (l : List ResourceManager) (k i : ℕ),
      (p.recycleFrom ts k l)[i]? = (l[i]?).map (fun r => p._recycle (ts (k + i)) r) := by
  intro l
  induction l with
  | nil => intro k i; simp [Pool.recycleFrom]
  | cons r rest ih =>
    intro k i
    cases i with
    | zero => simp [Pool.recycleFrom]
    | succ j =>
      rw [Pool.recycleFrom, List.getElem?_cons_succ, List.getElem?_cons_succ,
        ih (k + 1) j, show k + 1 + j = k + (j + 1) from by omega]

/-- C9: one sweep (`Pool.recycle`) drains the whole idle store (which,
under the LifoQueue bound, never exceeds the capacity), applies
`_recycle` to each drained resource, and pushes all of them back: the
store afterwards is exactly the element-wise recycling of the store
before, so no resource is lost or added - the multiset (indeed the
list) of resource names is unchanged. -/
theorem sweepPreservesResources (p : Pool) (ts : ℕ → ℤ)
    (h : p.store.length ≤ p.capacity) :
    (p.recycle ts).store = p.recycleFrom ts 0 p.store ∧
    ((p.recycle ts).store.map (fun r => r.name)).Perm
      (p.store.map (fun r => r.name)) ∧
    (p.recycle ts).store.length = p.store.length := by
  have hs := sweepLoop_spec p ts p.store [] (by simpa using h)
  have h1 : (p.recycle ts).store = p.recycleFrom ts 0 p.store := by
    simp [Pool.recycle, hs]
  refine ⟨h1, ?_, ?_⟩
  · rw [h1, recycleFrom_map_name]
  · rw [h1, recycleFrom_length]

/-- C9 witness: at the concrete full pool `poolUsage2`. -/
theorem sweepPreservesResourcesWitness :
    (poolUsage2.recycle (fun _ => 1)).store =
      poolUsage2.recycleFrom (fun _ => 1) 0 poolUsage2.store :=
  (sweepPreservesResources poolUsage2 (fun _ => 1) (by decide)).1

/-- C10: the sweep pushes the drained resources back in reverse pop
order, so each resource ends at exactly the stack position it occupied
before (position `i` afterwards holds the recycled original occupant of
position `i`), and `_recycle` changes at most `isOpen` (open to closed):
`name`, `lastOpened`, `lastUsed` and `usageCount` are untouched. -/
theorem sweepPreservesOrder (p : Pool) (ts : ℕ → ℤ)
    (h : p.store.length ≤ p.capacity) :
    (p.recycle ts).store.length = p.store.length ∧
    (∀ i : ℕ, (p.recycle ts).store[i]? =
      (p.store[i]?).map (fun r => p._recycle (ts i) r)) ∧
    (∀ (t : ℤ) (r : ResourceManager),
      (p._recycle t r).name = r.name ∧
      (p._recycle t r).lastOpened = r.lastOpened ∧
      (p._recycle t r).lastUsed = r.lastUsed ∧
      (p._recycle t r).usageCount = r.usageCount ∧
      ((p._recycle t r).isOpen = true → r.isOpen = true)) := by
  have hs := sweepLoop_spec p ts p.store [] (by simpa using h)
  have h1 : (p.recycle ts).store = p.recycleFrom ts 0 p.store := by
    simp [Pool.recycle, hs]
  refine ⟨by rw [h1, recycleFrom_length], fun i => ?_, recycle_frame p⟩
  rw [h1, recycleFrom_getElem]
  simp

/-- C10 witness: at the concrete full pool `poolUsage2`. -/
theorem sweepPreservesOrderWitness :
    (poolUsage2.recycle (fun _ => 2)).store.length = poolUsage2.store.length :=
  (sweepPreservesOrder poolUsage2 (fun _ => 2) (by decide)).1
